import Mathlib

/-!
Verification development for the vscode-collab pair-programming extension.

The definitions below are a shallow embedding of the extension's source:

* `OtText` — the text OT type used by the document sync engine (the
  implementation lives in the external `ot-text` package; the repository only
  ships its type declaration `src/types/ot-text.d.ts`, so `apply` and
  `transform` are modelled from the spec's description of the OT algebra).
* `Collab.isIgnoredByPatterns` — `src/utils/globUtils.ts`.
* `Collab.HostSession` — the handshake and message routing of
  `src/session/hostSession.ts`.
* `Collab.CursorSync` / `Collab.DocumentSync` — `src/sync/cursorSync.ts`.
* `Collab.Ext` — the command handlers of `src/extension.ts`.

Documents are modelled as `List Char`, JavaScript runtime values that flow
through untyped payload casts as `JVal`, and effectful handlers as functions
returning a trace of effects (or `Except JsError` where the JavaScript code
can throw).
-/

namespace OtText

/-- Modelled from the spec: an operation is "an ordered sequence of edit
primitives (retain N characters, insert text, delete N characters)".  The
`ot-text` implementation is external to the repository (only the type
declaration `src/types/ot-text.d.ts` is in the sources). -/
inductive TextOp where
  | retain (n : Nat)
  | insert (s : List Char)
  | delete (n : Nat)
  deriving DecidableEq, Repr

/-- An operation: an ordered sequence of edit primitives. -/
abbrev Op := List TextOp

/-- Tie-break side for `transform`, per `src/types/ot-text.d.ts`:
`"left" | "right"`. -/
inductive Side where
  | left
  | right
  deriving DecidableEq, Repr

/-- Modelled from the spec: `apply(snapshot, op)` applies each primitive in
order; an operation spans the whole document (a retain/delete past the end of
the snapshot, or leftover text after the last primitive, is a malformed
application and yields `none`). -/
def apply : List Char → Op → Option (List Char)
  | doc, [] => if doc = [] then some [] else none
  | doc, .retain n :: ops =>
      if n ≤ doc.length then (apply (doc.drop n) ops).map (fun t => doc.take n ++ t)
      else none
  | doc, .insert s :: ops => (apply doc ops).map (fun t => s ++ t)
  | doc, .delete n :: ops =>
      if n ≤ doc.length then apply (doc.drop n) ops else none

/-- Modelled from the spec: `transform(op1, op2, side)` rewrites `op1` to act
on a document to which `op2` has already been applied; when both operations
insert at the same position the `side` tie-break decides whose insertion goes
first (`left` gives `op1` priority, mirroring "operations originating from the
host always win tie-breaks").  Retains and deletes are split against each
other component-wise, per the standard OT algebra. -/
def transform : Op → Op → Side → Op
  | [], [], _ => []
  | [], .retain _ :: bs, side => transform [] bs side
  | [], .insert t :: bs, side => .retain t.length :: transform [] bs side
  | [], .delete _ :: bs, side => transform [] bs side
  | .retain n :: as, [], side => .retain n :: transform as [] side
  | .insert s :: as, [], side => .insert s :: transform as [] side
  | .delete n :: as, [], side => .delete n :: transform as [] side
  | .insert s :: as, .insert t :: bs, .left =>
      .insert s :: transform as (.insert t :: bs) .left
  | .insert s :: as, .insert t :: bs, .right =>
      .retain t.length :: transform (.insert s :: as) bs .right
  | .insert s :: as, .retain m :: bs, side =>
      .insert s :: transform as (.retain m :: bs) side
  | .insert s :: as, .delete m :: bs, side =>
      .insert s :: transform as (.delete m :: bs) side
  | .retain n :: as, .insert t :: bs, side =>
      .retain t.length :: transform (.retain n :: as) bs side
  | .delete n :: as, .insert t :: bs, side =>
      .retain t.length :: transform (.delete n :: as) bs side
  | .retain n :: as, .retain m :: bs, side =>
      if n < m then .retain n :: transform as (.retain (m - n) :: bs) side
      else if m < n then .retain m :: transform (.retain (n - m) :: as) bs side
      else .retain n :: transform as bs side
  | .retain n :: as, .delete m :: bs, side =>
      if n < m then transform as (.delete (m - n) :: bs) side
      else if m < n then transform (.retain (n - m) :: as) bs side
      else transform as bs side
  | .delete n :: as, .retain m :: bs, side =>
      if n < m then .delete n :: transform as (.retain (m - n) :: bs) side
      else if m < n then .delete m :: transform (.delete (n - m) :: as) bs side
      else .delete n :: transform as bs side
  | .delete n :: as, .delete m :: bs, side =>
      if n < m then transform as (.delete (m - n) :: bs) side
      else if m < n then transform (.delete (n - m) :: as) bs side
      else transform as bs side
  termination_by a b _ => a.length + b.length
  decreasing_by all_goals simp <;> omega

end OtText

namespace Collab

/-- JavaScript `s.startsWith(pre)`. -/
def jsStartsWith (s pre : String) : Bool :=
  pre.data.isPrefixOf s.data

/-- JavaScript `s.slice(n)`. -/
def jsDrop (s : String) (n : Nat) : String :=
  ⟨s.data.drop n⟩

/-- JavaScript `s.length`. -/
def jsLength (s : String) : Nat :=
  s.data.length

/-- JavaScript `s.replace(/\\/g, "/")`. -/
def jsSlash (s : String) : String :=
  ⟨s.data.map (fun c => if c = '\\' then '/' else c)⟩

/-- Embeds `isIgnoredByPatterns` from `src/utils/globUtils.ts`:
`patterns.some((p) => minimatch(relativePath, p, { dot: true }))`.
The external `minimatch` matcher (invoked with the dot-file option) is a
parameter `minimatchDot`. -/
def isIgnoredByPatterns (minimatchDot : String → String → Bool)
    (relativePath : String) (patterns : List String) : Bool :=
  patterns.any (fun p => minimatchDot relativePath p)

/-- Cursor position, per the `CursorUpdate` payload of the protocol. -/
structure Position where
  line : Nat
  character : Nat
  deriving DecidableEq, Repr

/-- Selection range of a cursor (`selection.start` / `selection.end`). -/
structure SelRange where
  start : Position
  endPos : Position
  deriving DecidableEq, Repr

/-- One cursor of a `CursorUpdate` payload. -/
structure Cursor where
  position : Position
  selection : Option SelRange
  deriving DecidableEq, Repr

/-- Payload of an outbound `CursorUpdate` message (`src/sync/cursorSync.ts`). -/
structure CursorUpdatePayload where
  filePath : String
  username : String
  cursors : List Cursor
  deriving DecidableEq, Repr

/-- Outbound protocol messages the embedded handlers can produce. -/
inductive ProtoMsg where
  | error (message : String)
  | welcome (hostUsername : String) (openFiles : List String)
  | fileSaved (filePath : String)
  | cursorUpdate (payload : CursorUpdatePayload)
  | fileCreated (path : String)
  | fileDeleted (path : String)
  | fileRenamed (oldPath newPath : String)
  deriving DecidableEq, Repr

/-- A file-system event observed by File-Ops Sync. -/
inductive FileOpsEvent where
  | created (path : String)
  | deleted (path : String)
  | renamed (oldPath newPath : String)
  deriving DecidableEq, Repr

/-- Path of a File-Ops event (the old path for a rename). -/
def FileOpsEvent.path : FileOpsEvent → String
  | .created p => p
  | .deleted p => p
  | .renamed p _ => p

/-- Protocol message corresponding to a File-Ops event. -/
def FileOpsEvent.message : FileOpsEvent → ProtoMsg
  | .created p => .fileCreated p
  | .deleted p => .fileDeleted p
  | .renamed p q => .fileRenamed p q

/-- Modelled from the spec: the File-Ops Sync outbound path ("filters each
event's path against the Ignore Pattern Set, and if not excluded, sends the
corresponding message"); `src/sync/fileOpsSync.ts` is not among the provided
sources, only its instantiation in `hostSession.ts`. -/
def fileOpsOutbound (minimatchDot : String → String → Bool)
    (patterns : List String) (ev : FileOpsEvent) : List ProtoMsg :=
  if isIgnoredByPatterns minimatchDot ev.path patterns then []
  else [ev.message]

/-- A VS Code workspace folder (`name` and `uri.fsPath`). -/
structure WorkspaceFolder where
  name : String
  fsPath : String
  deriving DecidableEq, Repr

/-- The fields of a `vscode.TextDocument` that `getOpenTextFiles` inspects. -/
structure TextDocument where
  scheme : String
  fsPath : String
  isClosed : Bool
  deriving DecidableEq, Repr

/-- Embeds `fsPath.slice(rootPath.length + 1).replace(/\\/g, "/")` from
`hostSession.ts` / `cursorSync.ts`. -/
def relativePathOf (rootPath fsPath : String) : String :=
  jsSlash (jsDrop fsPath (jsLength rootPath + 1))

/-- The host-side environment `HostSession` reads from VS Code. -/
structure HostEnv where
  username : String
  workspaceFolders : List WorkspaceFolder
  textDocuments : List TextDocument

/-- Embeds `HostSession.getOpenTextFiles` (`src/session/hostSession.ts`,
lines 311-330): keep open `file`-scheme documents whose `fsPath` starts with
the workspace root, and return their workspace-relative paths. -/
def getOpenTextFiles (wsFolder : Option WorkspaceFolder)
    (textDocuments : List TextDocument) : List String :=
  match wsFolder with
  | none => []
  | some ws =>
      (textDocuments.filter (fun d =>
          d.scheme == "file" && jsStartsWith d.fsPath ws.fsPath && !d.isClosed)).map
        (fun d => relativePathOf ws.fsPath d.fsPath)

/-- The `Hello` handshake payload (§4.1 of the spec). -/
structure HelloPayload where
  username : Option String
  workspaceFolder : String
  passphraseHash : Option String
  deriving DecidableEq, Repr

/-- Effects `HostSession.onClientConnected` can perform. -/
inductive HostEffect where
  | send (m : ProtoMsg)
  | showWarningMessage (s : String)
  | showInformationMessage (s : String)
  | setStatusBarHostConnected
  | setupSync
  | ensureDoc (filePath : String)
  | sendCurrentCursor
  | closeConnection
  deriving DecidableEq, Repr

/-- JavaScript `x || d` for an optional string (both `undefined` and the empty
string are falsy), as in `hello.username || "Anonymous"`. -/
def jsOr (v : Option String) (d : String) : String :=
  match v with
  | some s => if s = "" then d else s
  | none => d

/-- Warning text produced on a workspace-folder name mismatch. -/
def workspaceMismatchWarning (clientFolder hostFolder : String) : String :=
  "Client workspace \"" ++ clientFolder ++ "\" differs from host \"" ++
    hostFolder ++ "\". Proceeding anyway."

/-- Embeds `HostSession.onClientConnected` (`src/session/hostSession.ts`,
lines 124-175) as the trace of effects it performs: reject with an `Error`
when no workspace is open; warn (but proceed) on a workspace-folder name
mismatch; then update the status bar, announce the client, set up the sync
subsystems, send `Welcome` with the open files, ensure a ShareDB doc per open
file, and push the current cursor. -/
def onClientConnected (env : HostEnv) (hello : HelloPayload) : List HostEffect :=
  let clientUsername := jsOr hello.username "Anonymous"
  match env.workspaceFolders.head? with
  | none => [.send (.error "Host has no workspace open.")]
  | some wsFolder =>
      let openFiles := getOpenTextFiles (some wsFolder) env.textDocuments
      (if hello.workspaceFolder = wsFolder.name then []
       else [.showWarningMessage
              (workspaceMismatchWarning hello.workspaceFolder wsFolder.name)])
      ++ [.setStatusBarHostConnected,
          .showInformationMessage (clientUsername ++ " connected to your session."),
          .setupSync,
          .send (.welcome env.username openFiles)]
      ++ openFiles.map .ensureDoc
      ++ [.sendCurrentCursor]

/-- Modelled from the spec: validation of the optional session passphrase
during the handshake ("optional passphrase (mismatch → send `Error`, close
connection)").  The transport/server sources that perform this check are not
among the provided files; only their caller `hostSession.ts` is. -/
def passphraseCheck (sessionPassphrase helloPassphrase : Option String) : Bool :=
  match sessionPassphrase with
  | none => true
  | some p => helloPassphrase = some p

/-- Host connection state after an attempted handshake. -/
inductive HostConnState where
  | listening
  | connected
  deriving DecidableEq, Repr

/-- Modelled from the spec: the host handshake — gate the `Hello` on the
passphrase check (mismatch sends `Error` and closes only that connection,
leaving the host listening), otherwise hand over to `onClientConnected`. -/
def hostHandshake (sessionPassphrase : Option String) (env : HostEnv)
    (hello : HelloPayload) : HostConnState × List HostEffect :=
  if passphraseCheck sessionPassphrase hello.passphraseHash then
    (.connected, onClientConnected env hello)
  else
    (.listening, [.send (.error "Invalid passphrase."), .closeConnection])

/-- Untyped JavaScript runtime values, as they flow through the `as`-casts of
the message handlers. -/
inductive JVal where
  | null
  | undefined
  | bool (b : Bool)
  | num (n : Int)
  | str (s : String)
  | obj (fields : List (String × JVal))
  | arr (elems : List JVal)

/-- A JavaScript runtime exception. -/
inductive JsError where
  | typeError
  deriving DecidableEq, Repr

/-- JavaScript property access `v.k`: throws `TypeError` on `null`/`undefined`,
yields the field (or `undefined`) on objects, `undefined` on other values. -/
def jget : JVal → String → Except JsError JVal
  | .null, _ => .error .typeError
  | .undefined, _ => .error .typeError
  | .obj fields, k => .ok ((fields.lookup k).getD .undefined)
  | _, _ => .ok .undefined

/-- JavaScript truthiness. -/
def truthy : JVal → Bool
  | .null => false
  | .undefined => false
  | .bool b => b
  | .num n => n != 0
  | .str s => s ≠ ""
  | .obj _ => true
  | .arr _ => true

/-- JavaScript strict equality of a value with a string literal
(`v === s` is false whenever `v` is not a string). -/
def jvalEqStr (v : JVal) (s : String) : Bool :=
  match v with
  | .str t => t == s
  | _ => false

/-- Embeds `DocumentSync.handleFileSaveRequest` (`src/sync/cursorSync.ts`
sources, `DocumentSync`, lines 393-406): read `payload.filePath` (a JavaScript
property access that throws on a `null` payload), build the absolute URI
(`vscode.Uri.joinPath` rejects a non-string path), then try to open and save
the document — on success send `FileSaved`, on failure silently ignore
("client will keep dirty state").  `saveOk` models whether opening and saving
the file at the given absolute path succeeds. -/
def handleFileSaveRequest (workspaceRoot : String) (saveOk : String → Bool)
    (payload : JVal) : Except JsError (List ProtoMsg) := do
  let fp ← jget payload "filePath"
  match fp with
  | .str p =>
      if saveOk (workspaceRoot ++ "/" ++ p) then .ok [.fileSaved p] else .ok []
  | _ => .error .typeError

/-- One selection of a VS Code editor (`active`, `start`, `end`). -/
structure Selection where
  active : Position
  start : Position
  endPos : Position
  deriving DecidableEq, Repr

/-- VS Code's `selection.isEmpty`. -/
def Selection.isEmpty (s : Selection) : Bool :=
  s.start = s.endPos

/-- The fields of a `vscode.TextEditor` that `sendCursorUpdate` inspects. -/
structure TextEditor where
  scheme : String
  fsPath : String
  selections : List Selection
  deriving DecidableEq, Repr

/-- The environment `CursorSync` reads from VS Code. -/
structure CursorEnv where
  workspaceFolders : List WorkspaceFolder
  username : String

/-- Embeds the `editor.selections.map(...)` of `CursorSync.sendCursorUpdate`. -/
def cursorsOf (sels : List Selection) : List Cursor :=
  sels.map (fun sel =>
    { position := sel.active,
      selection :=
        if sel.isEmpty then none else some { start := sel.start, endPos := sel.endPos } })

/-- Embeds `CursorSync.sendCursorUpdate` (`src/sync/cursorSync.ts`, lines
140-182): only `file`-scheme documents inside the first workspace folder
produce a `CursorUpdate`; the payload carries the relative path, the local
username and the mapped selections. -/
def sendCursorUpdate (env : CursorEnv) (editor : TextEditor) : List ProtoMsg :=
  if editor.scheme ≠ "file" then []
  else
    match env.workspaceFolders.head? with
    | none => []
    | some ws =>
        if !jsStartsWith editor.fsPath ws.fsPath then []
        else
          [.cursorUpdate
            { filePath := relativePathOf ws.fsPath editor.fsPath,
              username := env.username,
              cursors := cursorsOf editor.selections }]

/-- `CursorSync.DEBOUNCE_MS` (`src/sync/cursorSync.ts`, line 28). -/
def DEBOUNCE_MS : Nat := 50

/-- The pending debounce timer of `CursorSync`: its firing deadline and the
editor captured by the `setTimeout` callback. -/
structure TimerState where
  deadline : Nat
  editor : TextEditor
  deriving DecidableEq, Repr

/-- Embeds the debounce of `CursorSync.onLocalSelectionChange` (lines 129-138)
over a timed sequence of local selection-change events: each event clears any
pending timer and arms a new one for `DEBOUNCE_MS` later, capturing its own
editor; a timer whose deadline passes before the next event fires
`sendCursorUpdate` for its captured editor; the last pending timer fires after
the final event. -/
def debounceAux (env : CursorEnv) (timer : Option TimerState) :
    List (Nat × TextEditor) → List ProtoMsg
  | [] =>
      match timer with
      | none => []
      | some t => sendCursorUpdate env t.editor
  | ev :: rest =>
      match timer with
      | none => debounceAux env (some { deadline := ev.1 + DEBOUNCE_MS, editor := ev.2 }) rest
      | some t =>
          if ev.1 < t.deadline then
            debounceAux env (some { deadline := ev.1 + DEBOUNCE_MS, editor := ev.2 }) rest
          else
            sendCursorUpdate env t.editor ++
              debounceAux env (some { deadline := ev.1 + DEBOUNCE_MS, editor := ev.2 }) rest

/-- Runs the debounced cursor broadcast over a timed event sequence, starting
with no pending timer. -/
def debounceRun (env : CursorEnv) (events : List (Nat × TextEditor)) : List ProtoMsg :=
  debounceAux env none events

/-- Last element of `e :: l`. -/
def lastEvent (e : Nat × TextEditor) (l : List (Nat × TextEditor)) : Nat × TextEditor :=
  l.foldl (fun _ b => b) e

/-- The mutable state of `CursorSync` touched by remote cursor updates. -/
structure CursorSyncSt where
  remoteCursors : JVal
  remoteFileUri : Option String
  previousRemoteFileUri : Option String

/-- The active editor fields `applyRemoteDecorations` inspects. -/
structure ActiveEditor where
  scheme : String
  fsPath : String
  lineCount : Nat
  deriving DecidableEq, Repr

/-- The VS Code environment the host's message router reads. -/
structure RouterEnv where
  activeTextEditor : Option ActiveEditor
  workspaceFolders : List WorkspaceFolder
  clientUsername : String
  workspaceRoot : String
  saveOk : String → Bool
  hasUrl : String → Bool

/-- Effects of routing one inbound message. -/
inductive RtEffect where
  | send (m : ProtoMsg)
  | setDecorations
  | clearDecorations
  | fireFileDecorations (uris : List String)
  | followUpdate (payload : JVal)
  | whiteboardStroke (payload : JVal)
  | whiteboardClear
  | chatInfo (sender text : String) (withLink : Bool)

/-- JavaScript number coercion used by `new vscode.Position(line, character)`
and `document.lineAt`: both throw on anything but a non-negative number. -/
def asNat : JVal → Except JsError Nat
  | .num n => if 0 ≤ n then .ok n.toNat else .error .typeError
  | _ => .error .typeError

/-- Embeds the per-cursor body of the `for (const cursor of ...)` loop of
`CursorSync.applyRemoteDecorations`: read `cursor.position.line` /
`.character` (property access on a missing `position` throws), build the
`vscode.Position` (throws on non-numbers), call `document.lineAt` (throws when
the line is out of range), and read the optional `selection` bounds. -/
def renderCursor (lineCount : Nat) (c : JVal) : Except JsError Unit := do
  let pos ← jget c "position"
  let line ← jget pos "line"
  let ch ← jget pos "character"
  let ln ← asNat line
  let _ ← asNat ch
  if lineCount ≤ ln then .error .typeError
  else do
    let sel ← jget c "selection"
    if truthy sel then do
      let s ← jget sel "start"
      let e ← jget sel "end"
      let _ ← asNat (← jget s "line")
      let _ ← asNat (← jget s "character")
      let _ ← asNat (← jget e "line")
      let _ ← asNat (← jget e "character")
      .ok ()
    else .ok ()

/-- Embeds `CursorSync.applyRemoteDecorations` (`src/sync/cursorSync.ts`,
lines 213-288): bail out without an active editor or with falsy
`remoteCursors`; clear the decorations when the remote cursor is in a
different file; otherwise iterate the payload's `cursors` (a `for..of` over a
non-iterable value throws) and set the decorations. -/
def applyRemoteDecorations (env : RouterEnv) (st : CursorSyncSt) :
    Except JsError (List RtEffect) :=
  match env.activeTextEditor with
  | none => .ok []
  | some editor =>
      if !truthy st.remoteCursors then .ok []
      else
        match env.workspaceFolders.head? with
        | none => .ok []
        | some ws =>
            let currentFilePath := relativePathOf ws.fsPath editor.fsPath
            do
              let fp ← jget st.remoteCursors "filePath"
              if !jvalEqStr fp currentFilePath then .ok [.clearDecorations]
              else do
                let cursors ← jget st.remoteCursors "cursors"
                match cursors with
                | .arr cs => do
                    cs.forM (renderCursor editor.lineCount)
                    .ok [.setDecorations]
                | .str s => if s.isEmpty then .ok [.setDecorations] else .error .typeError
                | _ => .error .typeError

/-- `vscode.Uri.joinPath(base, p)`: throws unless the appended segment is a
string. -/
def joinPath (root : String) : JVal → Except JsError String
  | .str s => .ok (root ++ "/" ++ s)
  | _ => .error .typeError

/-- Embeds `CursorSync.updateFileTabDecoration` (lines 192-209): form the new
URI from the payload's file path, queue the previous remote file for a
decoration refresh when the remote user moved files, shift the remembered
URIs, and fire the file-decoration event. -/
def updateFileTabDecoration (env : RouterEnv) (st : CursorSyncSt) (fp : JVal) :
    Except JsError (CursorSyncSt × List RtEffect) :=
  match env.workspaceFolders.head? with
  | none => .ok (st, [])
  | some ws => do
      let newUri ← joinPath ws.fsPath fp
      let urisToRefresh :=
        match st.previousRemoteFileUri with
        | some prev => if prev ≠ newUri then [prev] else []
        | none => []
      let st' := { st with
        previousRemoteFileUri := st.remoteFileUri,
        remoteFileUri := some newUri }
      .ok (st', [.fireFileDecorations (urisToRefresh ++ [newUri])])

/-- Embeds `CursorSync.handleRemoteCursorUpdate` (lines 186-190): store the
raw payload, re-render decorations, then read `payload.filePath` (throws on a
`null` payload) and update the tab decoration. -/
def handleRemoteCursorUpdate (env : RouterEnv) (st : CursorSyncSt)
    (payload : JVal) : Except JsError (CursorSyncSt × List RtEffect) := do
  let st := { st with remoteCursors := payload }
  let eff₁ ← applyRemoteDecorations env st
  let fp ← jget payload "filePath"
  let (st', eff₂) ← updateFileTabDecoration env st fp
  .ok (st', eff₁ ++ eff₂)

/-- The subsystem handles `HostSession.onMessage` dispatches to. -/
structure RouterState where
  cursorSync : Option CursorSyncSt
  documentSync : Bool
  whiteboard : Option Bool
  hasSendFn : Bool

/-- The message kinds `HostSession.onMessage` switches on; `otherType` stands
for every other member of the `MessageType` enum (the `default` branch). -/
inductive MessageType where
  | cursorUpdate
  | followUpdate
  | fileSaveRequest
  | whiteboardStroke
  | whiteboardClear
  | chatMessage
  | otherType
  deriving DecidableEq, Repr

/-- An inbound wire message as seen by the router: a kind and an untyped
payload. -/
structure RMessage where
  type : MessageType
  payload : JVal

/-- `HostSession.ensureWhiteboard`: construct the panel when a send function
exists and no live panel does (`some false` = live panel, `some true` =
disposed panel). -/
def ensureWhiteboard (st : RouterState) : RouterState :=
  if !st.hasSendFn then st
  else
    match st.whiteboard with
    | some false => st
    | _ => { st with whiteboard := some false }

/-- JavaScript `payload.text ?? ""` followed by `text.match(...)`: `null` and
`undefined` default to the empty string, any other non-string throws when
`.match` is called on it. -/
def coalesceMatchable : JVal → Except JsError String
  | .null => .ok ""
  | .undefined => .ok ""
  | .str s => .ok s
  | _ => .error .typeError

/-- JavaScript template-string display of a value (used for the chat sender).
-/
def jsDisplay : JVal → String
  | .null => "null"
  | .undefined => "undefined"
  | .bool b => if b then "true" else "false"
  | .num n => toString n
  | .str s => s
  | .obj _ => "[object Object]"
  | .arr _ => ""

/-- Embeds `HostSession.onMessage` (`src/session/hostSession.ts`, lines
193-258): a `switch` on `msg.type` that forwards the raw payload to the
matching subsystem handler when that subsystem exists, shows chat messages,
and silently ignores every other message kind.  `FollowUpdate` is forwarded
to the cursor sync as an opaque effect (the provided `cursorSync.ts` sources
predate follow mode).  No payload field is validated before dispatch; a
handler that accesses a field of a malformed payload propagates its
`TypeError` out of `onMessage`. -/
def onMessage (env : RouterEnv) (st : RouterState) (msg : RMessage) :
    Except JsError (RouterState × List RtEffect) :=
  match msg.type with
  | .cursorUpdate =>
      match st.cursorSync with
      | none => .ok (st, [])
      | some cs => do
          let (cs', effs) ← handleRemoteCursorUpdate env cs msg.payload
          .ok ({ st with cursorSync := some cs' }, effs)
  | .followUpdate =>
      match st.cursorSync with
      | none => .ok (st, [])
      | some _ => .ok (st, [.followUpdate msg.payload])
  | .fileSaveRequest =>
      if st.documentSync then do
        let msgs ← handleFileSaveRequest env.workspaceRoot env.saveOk msg.payload
        .ok (st, msgs.map .send)
      else .ok (st, [])
  | .whiteboardStroke =>
      let st' := ensureWhiteboard st
      match st'.whiteboard with
      | some false => .ok (st', [.whiteboardStroke msg.payload])
      | _ => .ok (st', [])
  | .whiteboardClear =>
      match st.whiteboard with
      | some false => .ok (st, [.whiteboardClear])
      | _ => .ok (st, [])
  | .chatMessage => do
      let t ← jget msg.payload "text"
      let text ← coalesceMatchable t
      let u ← jget msg.payload "username"
      let sender :=
        if truthy u then jsDisplay u
        else if env.clientUsername ≠ "" then env.clientUsername else "Client"
      .ok (st, [.chatInfo sender text (env.hasUrl text)])
  | .otherType => .ok (st, [])

/-- A session object as the extension holds it (`isActive` mirrors
`HostSession.isActive` / `ClientSession.isActive`). -/
structure SessionHandle where
  isActive : Bool
  deriving DecidableEq, Repr

/-- The module-level state of `src/extension.ts`: the nullable `hostSession`
and `clientSession` singletons, plus whether a workspace folder is open. -/
structure ExtState where
  hostSession : Option SessionHandle
  clientSession : Option SessionHandle
  workspaceOpen : Bool
  deriving DecidableEq, Repr

/-- JavaScript `hostSession?.isActive` truthiness. -/
def hostActive (st : ExtState) : Bool :=
  (st.hostSession.map SessionHandle.isActive).getD false

/-- JavaScript `clientSession?.isActive` truthiness. -/
def clientActive (st : ExtState) : Bool :=
  (st.clientSession.map SessionHandle.isActive).getD false

/-- User-interface notifications of the extension command handlers. -/
inductive UiMsg where
  | warning (s : String)
  | errorMsg (s : String)
  | info (s : String)
  deriving DecidableEq, Repr

/-- Embeds the `collab.startSession` handler (`src/extension.ts`, lines
21-53): refuse while a hosting session is active, refuse while connected as a
client, require an open workspace, then construct and start a `HostSession`
(`startOk` models whether `start()` resolves; on rejection the session is
disposed and nulled). -/
def startSession (st : ExtState) (startOk : Bool) : ExtState × List UiMsg :=
  if hostActive st then
    (st, [.warning "A hosting session is already active."])
  else if clientActive st then
    (st, [.warning "You are currently connected as a client. Leave that session first."])
  else if !st.workspaceOpen then
    (st, [.errorMsg "Open a workspace folder before starting a collaboration session."])
  else if startOk then
    ({ st with hostSession := some { isActive := true } }, [])
  else
    ({ st with hostSession := none }, [.errorMsg "Failed to start session"])

/-- Embeds the `collab.stopSession` handler (lines 59-67). -/
def stopSession (st : ExtState) : ExtState × List UiMsg :=
  if !hostActive st then
    (st, [.warning "No active hosting session to stop."])
  else
    ({ st with hostSession := none }, [.info "Pair Programming session stopped."])

/-- Embeds the `collab.joinSession` handler (lines 73-123): refuse while
connected as a client, refuse while hosting, require an open workspace, prompt
for an address (`none` models a cancelled prompt), then construct and connect
a `ClientSession` (`connectOk` models whether `connect()` resolves; on
rejection the session is disposed and nulled). -/
def joinSession (st : ExtState) (address : Option String) (connectOk : Bool) :
    ExtState × List UiMsg :=
  if clientActive st then
    (st, [.warning "Already connected to a session. Leave it first."])
  else if hostActive st then
    (st, [.warning "You are currently hosting a session. Stop it first."])
  else if !st.workspaceOpen then
    (st, [.errorMsg "Open a workspace folder before joining a collaboration session."])
  else
    match address with
    | none => (st, [])
    | some _ =>
        if connectOk then
          ({ st with clientSession := some { isActive := true } }, [])
        else
          ({ st with clientSession := none }, [.errorMsg "Failed to connect"])

/-- Embeds the `collab.leaveSession` handler (lines 129-138). -/
def leaveSession (st : ExtState) : ExtState × List UiMsg :=
  if !clientActive st then
    (st, [.warning "No active session to leave."])
  else
    ({ st with clientSession := none }, [])

/-- One user command against the extension state. -/
inductive ExtCmd where
  | start (startOk : Bool)
  | stop
  | join (address : Option String) (connectOk : Bool)
  | leave

/-- Dispatch of the extension commands. -/
def extStep (st : ExtState) : ExtCmd → ExtState × List UiMsg
  | .start ok => startSession st ok
  | .stop => stopSession st
  | .join addr ok => joinSession st addr ok
  | .leave => leaveSession st

end Collab

namespace OtText

theorem apply_nil (doc : List Char) :
    apply doc [] = if doc = [] then some [] else none := by
  simp [apply]

theorem apply_retain (doc : List Char) (n : Nat) (ops : Op) :
    apply doc (.retain n :: ops) =
      if n ≤ doc.length then (apply (doc.drop n) ops).map (fun t => doc.take n ++ t)
      else none := by
  simp [apply]

theorem apply_insert (doc : List Char) (s : List Char) (ops : Op) :
    apply doc (.insert s :: ops) = (apply doc ops).map (fun t => s ++ t) := by
  simp [apply]

theorem apply_delete (doc : List Char) (n : Nat) (ops : Op) :
    apply doc (.delete n :: ops) =
      if n ≤ doc.length then apply (doc.drop n) ops else none := by
  simp [apply]

theorem apply_nil_some {doc x : List Char} :
    apply doc [] = some x ↔ doc = [] ∧ x = [] := by
  rw [apply_nil]
  split <;> simp_all [eq_comm]

theorem apply_retain_some {doc : List Char} {n : Nat} {ops : Op} {x : List Char} :
    apply doc (.retain n :: ops) = some x ↔
      n ≤ doc.length ∧ ∃ y, apply (doc.drop n) ops = some y ∧ x = doc.take n ++ y := by
  rw [apply_retain]
  split <;> rename_i h
  · simp only [Option.map_eq_some', h, true_and]
    exact ⟨fun ⟨y, hy, e⟩ => ⟨y, hy, e.symm⟩, fun ⟨y, hy, e⟩ => ⟨y, hy, e.symm⟩⟩
  · simp [h]

theorem apply_insert_some {doc s : List Char} {ops : Op} {x : List Char} :
    apply doc (.insert s :: ops) = some x ↔
      ∃ y, apply doc ops = some y ∧ x = s ++ y := by
  rw [apply_insert]
  simp only [Option.map_eq_some']
  exact ⟨fun ⟨y, hy, e⟩ => ⟨y, hy, e.symm⟩, fun ⟨y, hy, e⟩ => ⟨y, hy, e.symm⟩⟩

theorem apply_delete_some {doc : List Char} {n : Nat} {ops : Op} {x : List Char} :
    apply doc (.delete n :: ops) = some x ↔
      n ≤ doc.length ∧ apply (doc.drop n) ops = some x := by
  rw [apply_delete]
  split <;> rename_i h <;> simp [h]

theorem transform_insert_fst_left (s : List Char) (as b : Op) :
    transform (.insert s :: as) b .left = .insert s :: transform as b .left := by
  match b with
  | [] => simp [transform]
  | .retain m :: bs => simp [transform]
  | .insert t :: bs => simp [transform]
  | .delete m :: bs => simp [transform]

theorem transform_insert_snd_right (s : List Char) (as b : Op) :
    transform b (.insert s :: as) .right =
      .retain s.length :: transform b as .right := by
  match b with
  | [] => simp [transform]
  | .retain m :: bs => simp [transform]
  | .insert t :: bs => simp [transform]
  | .delete m :: bs => simp [transform]

theorem take_append_prefix {base w : List Char} {n m : Nat} (hnm : n ≤ m)
    (hm : m ≤ base.length) : (base.take m ++ w).take n = base.take n := by
  rw [List.take_append_of_le_length (by simp [List.length_take]; omega),
    List.take_take, Nat.min_eq_left hnm]

theorem drop_append_prefix {base w : List Char} {n m : Nat} (hnm : n ≤ m)
    (hm : m ≤ base.length) :
    (base.take m ++ w).drop n = (base.drop n).take (m - n) ++ w := by
  rw [List.drop_append_of_le_length (by simp [List.length_take]; omega),
    List.drop_take]

theorem take_append_cancel {base w : List Char} {n : Nat} (hn : n ≤ base.length) :
    (base.take n ++ w).take n = base.take n :=
  List.take_left' (by simp [List.length_take]; omega)

theorem drop_append_cancel {base w : List Char} {n : Nat} (hn : n ≤ base.length) :
    (base.take n ++ w).drop n = w :=
  List.drop_left' (by simp [List.length_take]; omega)

theorem drop_drop_of_le {base : List Char} {n m : Nat} (hnm : n ≤ m) :
    (base.drop n).drop (m - n) = base.drop m := by
  rw [List.drop_drop]
  congr 1
  omega

theorem length_take_append {base w : List Char} {m : Nat} (hm : m ≤ base.length) :
    (base.take m ++ w).length = m + w.length := by
  simp [List.length_take]
  omega

/-- Transformation property TP1 for the modelled `ot-text` type, by strong
induction on the combined component count of both operations: compatible
operations `a` and `b` (both applicable to the same base document) reach the
same document along either path of the diamond. -/
theorem convergence_aux (k : Nat) :
    ∀ (a b : Op) (base x y : List Char),
      a.length + b.length ≤ k →
      apply base a = some x → apply base b = some y →
      ∃ z, apply y (transform a b .left) = some z ∧
           apply x (transform b a .right) = some z := by
  induction k with
  | zero =>
      intro a b base x y hk ha hb
      rcases a with _ | ⟨c, as⟩
      · rcases b with _ | ⟨c, bs⟩
        · obtain ⟨rfl, rfl⟩ := apply_nil_some.mp ha
          obtain ⟨-, rfl⟩ := apply_nil_some.mp hb
          exact ⟨[], by simp [transform, apply], by simp [transform, apply]⟩
        · simp only [List.length_cons] at hk; omega
      · simp only [List.length_cons] at hk; omega
  | succ k ih =>
      intro a b base x y hk ha hb
      rcases a with _ | ⟨ca, as⟩
      case nil =>
        obtain ⟨rfl, rfl⟩ := apply_nil_some.mp ha
        rcases b with _ | ⟨cb, bs⟩
        case nil =>
          obtain ⟨-, rfl⟩ := apply_nil_some.mp hb
          exact ⟨[], by simp [transform, apply], by simp [transform, apply]⟩
        case cons =>
          rcases cb with m | t | m
          case retain =>
            obtain ⟨hm, y', hy', rfl⟩ := apply_retain_some.mp hb
            have hm0 : m = 0 := by simpa using hm
            subst hm0
            simp only [List.drop_nil] at hy'
            obtain ⟨z, hz1, hz2⟩ := ih [] bs [] [] y'
              (by simp only [List.length_cons] at hk ⊢; omega)
              (by simp [apply]) hy'
            refine ⟨z, ?_, ?_⟩
            · have ht1 : transform ([] : Op) (.retain 0 :: bs) .left =
                  transform [] bs .left := by simp [transform]
              rw [ht1]
              simpa using hz1
            · have ht2 : transform (.retain 0 :: bs) ([] : Op) .right =
                  .retain 0 :: transform bs [] .right := by simp [transform]
              rw [ht2, apply_retain]
              simpa using hz2
          case insert =>
            obtain ⟨y', hy', rfl⟩ := apply_insert_some.mp hb
            obtain ⟨z, hz1, hz2⟩ := ih [] bs [] [] y'
              (by simp only [List.length_cons] at hk ⊢; omega)
              (by simp [apply]) hy'
            refine ⟨t ++ z, ?_, ?_⟩
            · have ht1 : transform ([] : Op) (.insert t :: bs) .left =
                  .retain t.length :: transform [] bs .left := by simp [transform]
              rw [ht1, apply_retain, if_pos (by simp)]
              rw [List.take_left, List.drop_left, hz1]
              rfl
            · have ht2 : transform (.insert t :: bs) ([] : Op) .right =
                  .insert t :: transform bs [] .right := by simp [transform]
              rw [ht2, apply_insert, hz2]
              rfl
          case delete =>
            have hm := (apply_delete_some.mp hb).1
            have hy' := (apply_delete_some.mp hb).2
            have hm0 : m = 0 := by simpa using hm
            subst hm0
            simp only [List.drop_nil] at hy'
            obtain ⟨z, hz1, hz2⟩ := ih [] bs [] [] y
              (by simp only [List.length_cons] at hk ⊢; omega)
              (by simp [apply]) hy'
            refine ⟨z, ?_, ?_⟩
            · have ht1 : transform ([] : Op) (.delete 0 :: bs) .left =
                  transform [] bs .left := by simp [transform]
              rw [ht1]
              exact hz1
            · have ht2 : transform (.delete 0 :: bs) ([] : Op) .right =
                  .delete 0 :: transform bs [] .right := by simp [transform]
              rw [ht2, apply_delete]
              simpa using hz2
      case cons =>
        rcases ca with n | s | n
        case insert =>
          obtain ⟨x', hx', rfl⟩ := apply_insert_some.mp ha
          obtain ⟨z, hz1, hz2⟩ := ih as b base x' y
            (by simp only [List.length_cons] at hk ⊢; omega) hx' hb
          refine ⟨s ++ z, ?_, ?_⟩
          · rw [transform_insert_fst_left, apply_insert, hz1]
            rfl
          · rw [transform_insert_snd_right, apply_retain, if_pos (by simp)]
            rw [List.take_left, List.drop_left, hz2]
            rfl
        case retain =>
          obtain ⟨hn, x', hx', rfl⟩ := apply_retain_some.mp ha
          rcases b with _ | ⟨cb, bs⟩
          case nil =>
            obtain ⟨rfl, rfl⟩ := apply_nil_some.mp hb
            have hn0 : n = 0 := by simpa using hn
            subst hn0
            simp only [List.drop_nil] at hx'
            obtain ⟨z, hz1, hz2⟩ := ih as [] [] x' []
              (by simp only [List.length_cons] at hk ⊢; omega)
              hx' (by simp [apply])
            refine ⟨z, ?_, ?_⟩
            · have ht1 : transform (.retain 0 :: as) ([] : Op) .left =
                  .retain 0 :: transform as [] .left := by simp [transform]
              rw [ht1, apply_retain]
              simpa using hz1
            · have ht2 : transform ([] : Op) (.retain 0 :: as) .right =
                  transform [] as .right := by simp [transform]
              rw [ht2]
              simpa using hz2
          case cons =>
            rcases cb with m | t | m
            case insert =>
              obtain ⟨y', hy', rfl⟩ := apply_insert_some.mp hb
              obtain ⟨z, hz1, hz2⟩ := ih (.retain n :: as) bs base (base.take n ++ x') y'
                (by simp only [List.length_cons] at hk ⊢; omega)
                (apply_retain_some.mpr ⟨hn, x', hx', rfl⟩) hy'
              refine ⟨t ++ z, ?_, ?_⟩
              · have ht1 : transform (.retain n :: as) (.insert t :: bs) .left =
                    .retain t.length :: transform (.retain n :: as) bs .left := by
                  simp [transform]
                rw [ht1, apply_retain, if_pos (by simp)]
                rw [List.take_left, List.drop_left, hz1]
                rfl
              · have ht2 : transform (.insert t :: bs) (.retain n :: as) .right =
                    .insert t :: transform bs (.retain n :: as) .right := by
                  simp [transform]
                rw [ht2, apply_insert, hz2]
                rfl
            case retain =>
              obtain ⟨hm, y', hy', rfl⟩ := apply_retain_some.mp hb
              rcases Nat.lt_trichotomy n m with hlt | heq | hgt
              · have ht1 : transform (.retain n :: as) (.retain m :: bs) .left =
                    .retain n :: transform as (.retain (m - n) :: bs) .left := by
                  simp [transform, hlt]
                have ht2 : transform (.retain m :: bs) (.retain n :: as) .right =
                    .retain n :: transform (.retain (m - n) :: bs) as .right := by
                  simp [transform, hlt, Nat.lt_asymm hlt]
                have hb' : apply (base.drop n) (.retain (m - n) :: bs) =
                    some ((base.drop n).take (m - n) ++ y') :=
                  apply_retain_some.mpr
                    ⟨by simp [List.length_drop]; omega, y',
                      by rw [drop_drop_of_le (le_of_lt hlt)]; exact hy', rfl⟩
                obtain ⟨z, hz1, hz2⟩ := ih as (.retain (m - n) :: bs) (base.drop n) x' _
                  (by simp only [List.length_cons] at hk ⊢; omega) hx' hb'
                refine ⟨base.take n ++ z, ?_, ?_⟩
                · rw [ht1, apply_retain,
                    if_pos (by rw [length_take_append hm]; omega),
                    take_append_prefix (le_of_lt hlt) hm,
                    drop_append_prefix (le_of_lt hlt) hm, hz1]
                  rfl
                · rw [ht2, apply_retain,
                    if_pos (by rw [length_take_append hn]; omega),
                    take_append_cancel hn, drop_append_cancel hn, hz2]
                  rfl
              · subst heq
                have ht1 : transform (.retain n :: as) (.retain n :: bs) .left =
                    .retain n :: transform as bs .left := by
                  simp [transform]
                have ht2 : transform (.retain n :: bs) (.retain n :: as) .right =
                    .retain n :: transform bs as .right := by
                  simp [transform]
                obtain ⟨z, hz1, hz2⟩ := ih as bs (base.drop n) x' y'
                  (by simp only [List.length_cons] at hk ⊢; omega) hx' hy'
                refine ⟨base.take n ++ z, ?_, ?_⟩
                · rw [ht1, apply_retain,
                    if_pos (by rw [length_take_append hn]; omega),
                    take_append_cancel hn, drop_append_cancel hn, hz1]
                  rfl
                · rw [ht2, apply_retain,
                    if_pos (by rw [length_take_append hn]; omega),
                    take_append_cancel hn, drop_append_cancel hn, hz2]
                  rfl
              · have ht1 : transform (.retain n :: as) (.retain m :: bs) .left =
                    .retain m :: transform (.retain (n - m) :: as) bs .left := by
                  simp [transform, hgt, Nat.lt_asymm hgt]
                have ht2 : transform (.retain m :: bs) (.retain n :: as) .right =
                    .retain m :: transform bs (.retain (n - m) :: as) .right := by
                  simp [transform, hgt]
                have ha' : apply (base.drop m) (.retain (n - m) :: as) =
                    some ((base.drop m).take (n - m) ++ x') :=
                  apply_retain_some.mpr
                    ⟨by simp [List.length_drop]; omega, x',
                      by rw [drop_drop_of_le (le_of_lt hgt)]; exact hx', rfl⟩
                obtain ⟨z, hz1, hz2⟩ := ih (.retain (n - m) :: as) bs (base.drop m) _ y'
                  (by simp only [List.length_cons] at hk ⊢; omega) ha' hy'
                refine ⟨base.take m ++ z, ?_, ?_⟩
                · rw [ht1, apply_retain,
                    if_pos (by rw [length_take_append hm]; omega),
                    take_append_cancel hm, drop_append_cancel hm, hz1]
                  rfl
                · rw [ht2, apply_retain,
                    if_pos (by rw [length_take_append hn]; omega),
                    take_append_prefix (le_of_lt hgt) hn,
                    drop_append_prefix (le_of_lt hgt) hn, hz2]
                  rfl
            case delete =>
              obtain ⟨hm, hy'⟩ := apply_delete_some.mp hb
              rcases Nat.lt_trichotomy n m with hlt | heq | hgt
              · have ht1 : transform (.retain n :: as) (.delete m :: bs) .left =
                    transform as (.delete (m - n) :: bs) .left := by
                  simp [transform, hlt]
                have ht2 : transform (.delete m :: bs) (.retain n :: as) .right =
                    .delete n :: transform (.delete (m - n) :: bs) as .right := by
                  simp [transform, hlt, Nat.lt_asymm hlt]
                have hb' : apply (base.drop n) (.delete (m - n) :: bs) = some y :=
                  apply_delete_some.mpr
                    ⟨by simp [List.length_drop]; omega,
                      by rw [drop_drop_of_le (le_of_lt hlt)]; exact hy'⟩
                obtain ⟨z, hz1, hz2⟩ := ih as (.delete (m - n) :: bs) (base.drop n) x' y
                  (by simp only [List.length_cons] at hk ⊢; omega) hx' hb'
                refine ⟨z, ?_, ?_⟩
                · rw [ht1]
                  exact hz1
                · rw [ht2, apply_delete,
                    if_pos (by rw [length_take_append hn]; omega),
                    drop_append_cancel hn]
                  exact hz2
              · subst heq
                have ht1 : transform (.retain n :: as) (.delete n :: bs) .left =
                    transform as bs .left := by
                  simp [transform]
                have ht2 : transform (.delete n :: bs) (.retain n :: as) .right =
                    .delete n :: transform bs as .right := by
                  simp [transform]
                obtain ⟨z, hz1, hz2⟩ := ih as bs (base.drop n) x' y
                  (by simp only [List.length_cons] at hk ⊢; omega) hx' hy'
                refine ⟨z, ?_, ?_⟩
                · rw [ht1]
                  exact hz1
                · rw [ht2, apply_delete,
                    if_pos (by rw [length_take_append hn]; omega),
                    drop_append_cancel hn]
                  exact hz2
              · have ht1 : transform (.retain n :: as) (.delete m :: bs) .left =
                    transform (.retain (n - m) :: as) bs .left := by
                  simp [transform, hgt, Nat.lt_asymm hgt]
                have ht2 : transform (.delete m :: bs) (.retain n :: as) .right =
                    .delete m :: transform bs (.retain (n - m) :: as) .right := by
                  simp [transform, hgt]
                have ha' : apply (base.drop m) (.retain (n - m) :: as) =
                    some ((base.drop m).take (n - m) ++ x') :=
                  apply_retain_some.mpr
                    ⟨by simp [List.length_drop]; omega, x',
                      by rw [drop_drop_of_le (le_of_lt hgt)]; exact hx', rfl⟩
                obtain ⟨z, hz1, hz2⟩ := ih (.retain (n - m) :: as) bs (base.drop m) _ y
                  (by simp only [List.length_cons] at hk ⊢; omega) ha' hy'
                refine ⟨z, ?_, ?_⟩
                · rw [ht1]
                  exact hz1
                · rw [ht2, apply_delete,
                    if_pos (by rw [length_take_append hn]; omega),
                    drop_append_prefix (le_of_lt hgt) hn]
                  exact hz2
        case delete =>
          obtain ⟨hn, hx'⟩ := apply_delete_some.mp ha
          rcases b with _ | ⟨cb, bs⟩
          case nil =>
            obtain ⟨rfl, rfl⟩ := apply_nil_some.mp hb
            have hn0 : n = 0 := by simpa using hn
            subst hn0
            simp only [List.drop_nil] at hx'
            obtain ⟨z, hz1, hz2⟩ := ih as [] [] x []
              (by simp only [List.length_cons] at hk ⊢; omega)
              hx' (by simp [apply])
            refine ⟨z, ?_, ?_⟩
            · have ht1 : transform (.delete 0 :: as) ([] : Op) .left =
                  .delete 0 :: transform as [] .left := by simp [transform]
              rw [ht1, apply_delete]
              simpa using hz1
            · have ht2 : transform ([] : Op) (.delete 0 :: as) .right =
                  transform [] as .right := by simp [transform]
              rw [ht2]
              exact hz2
          case cons =>
            rcases cb with m | t | m
            case insert =>
              obtain ⟨y', hy', rfl⟩ := apply_insert_some.mp hb
              obtain ⟨z, hz1, hz2⟩ := ih (.delete n :: as) bs base x y'
                (by simp only [List.length_cons] at hk ⊢; omega)
                (apply_delete_some.mpr ⟨hn, hx'⟩) hy'
              refine ⟨t ++ z, ?_, ?_⟩
              · have ht1 : transform (.delete n :: as) (.insert t :: bs) .left =
                    .retain t.length :: transform (.delete n :: as) bs .left := by
                  simp [transform]
                rw [ht1, apply_retain, if_pos (by simp)]
                rw [List.take_left, List.drop_left, hz1]
                rfl
              · have ht2 : transform (.insert t :: bs) (.delete n :: as) .right =
                    .insert t :: transform bs (.delete n :: as) .right := by
                  simp [transform]
                rw [ht2, apply_insert, hz2]
                rfl
            case retain =>
              obtain ⟨hm, y', hy', rfl⟩ := apply_retain_some.mp hb
              rcases Nat.lt_trichotomy n m with hlt | heq | hgt
              · have ht1 : transform (.delete n :: as) (.retain m :: bs) .left =
                    .delete n :: transform as (.retain (m - n) :: bs) .left := by
                  simp [transform, hlt]
                have ht2 : transform (.retain m :: bs) (.delete n :: as) .right =
                    transform (.retain (m - n) :: bs) as .right := by
                  simp [transform, hlt, Nat.lt_asymm hlt]
                have hb' : apply (base.drop n) (.retain (m - n) :: bs) =
                    some ((base.drop n).take (m - n) ++ y') :=
                  apply_retain_some.mpr
                    ⟨by simp [List.length_drop]; omega, y',
                      by rw [drop_drop_of_le (le_of_lt hlt)]; exact hy', rfl⟩
                obtain ⟨z, hz1, hz2⟩ := ih as (.retain (m - n) :: bs) (base.drop n) x _
                  (by simp only [List.length_cons] at hk ⊢; omega) hx' hb'
                refine ⟨z, ?_, ?_⟩
                · rw [ht1, apply_delete,
                    if_pos (by rw [length_take_append hm]; omega),
                    drop_append_prefix (le_of_lt hlt) hm]
                  exact hz1
                · rw [ht2]
                  exact hz2
              · subst heq
                have ht1 : transform (.delete n :: as) (.retain n :: bs) .left =
                    .delete n :: transform as bs .left := by
                  simp [transform]
                have ht2 : transform (.retain n :: bs) (.delete n :: as) .right =
                    transform bs as .right := by
                  simp [transform]
                obtain ⟨z, hz1, hz2⟩ := ih as bs (base.drop n) x y'
                  (by simp only [List.length_cons] at hk ⊢; omega) hx' hy'
                refine ⟨z, ?_, ?_⟩
                · rw [ht1, apply_delete,
                    if_pos (by rw [length_take_append hn]; omega),
                    drop_append_cancel hn]
                  exact hz1
                · rw [ht2]
                  exact hz2
              · have ht1 : transform (.delete n :: as) (.retain m :: bs) .left =
                    .delete m :: transform (.delete (n - m) :: as) bs .left := by
                  simp [transform, hgt, Nat.lt_asymm hgt]
                have ht2 : transform (.retain m :: bs) (.delete n :: as) .right =
                    transform bs (.delete (n - m) :: as) .right := by
                  simp [transform, hgt]
                have ha' : apply (base.drop m) (.delete (n - m) :: as) = some x :=
                  apply_delete_some.mpr
                    ⟨by simp [List.length_drop]; omega,
                      by rw [drop_drop_of_le (le_of_lt hgt)]; exact hx'⟩
                obtain ⟨z, hz1, hz2⟩ := ih (.delete (n - m) :: as) bs (base.drop m) x y'
                  (by simp only [List.length_cons] at hk ⊢; omega) ha' hy'
                refine ⟨z, ?_, ?_⟩
                · rw [ht1, apply_delete,
                    if_pos (by rw [length_take_append hm]; omega),
                    drop_append_cancel hm]
                  exact hz1
                · rw [ht2]
                  exact hz2
            case delete =>
              obtain ⟨hm, hy'⟩ := apply_delete_some.mp hb
              rcases Nat.lt_trichotomy n m with hlt | heq | hgt
              · have ht1 : transform (.delete n :: as) (.delete m :: bs) .left =
                    transform as (.delete (m - n) :: bs) .left := by
                  simp [transform, hlt]
                have ht2 : transform (.delete m :: bs) (.delete n :: as) .right =
                    transform (.delete (m - n) :: bs) as .right := by
                  simp [transform, hlt, Nat.lt_asymm hlt]
                have hb' : apply (base.drop n) (.delete (m - n) :: bs) = some y :=
                  apply_delete_some.mpr
                    ⟨by simp [List.length_drop]; omega,
                      by rw [drop_drop_of_le (le_of_lt hlt)]; exact hy'⟩
                obtain ⟨z, hz1, hz2⟩ := ih as (.delete (m - n) :: bs) (base.drop n) x y
                  (by simp only [List.length_cons] at hk ⊢; omega) hx' hb'
                refine ⟨z, ?_, ?_⟩
                · rw [ht1]
                  exact hz1
                · rw [ht2]
                  exact hz2
              · subst heq
                have ht1 : transform (.delete n :: as) (.delete n :: bs) .left =
                    transform as bs .left := by
                  simp [transform]
                have ht2 : transform (.delete n :: bs) (.delete n :: as) .right =
                    transform bs as .right := by
                  simp [transform]
                obtain ⟨z, hz1, hz2⟩ := ih as bs (base.drop n) x y
                  (by simp only [List.length_cons] at hk ⊢; omega) hx' hy'
                refine ⟨z, ?_, ?_⟩
                · rw [ht1]
                  exact hz1
                · rw [ht2]
                  exact hz2
              · have ht1 : transform (.delete n :: as) (.delete m :: bs) .left =
                    transform (.delete (n - m) :: as) bs .left := by
                  simp [transform, hgt, Nat.lt_asymm hgt]
                have ht2 : transform (.delete m :: bs) (.delete n :: as) .right =
                    transform bs (.delete (n - m) :: as) .right := by
                  simp [transform, hgt]
                have ha' : apply (base.drop m) (.delete (n - m) :: as) = some x :=
                  apply_delete_some.mpr
                    ⟨by simp [List.length_drop]; omega,
                      by rw [drop_drop_of_le (le_of_lt hgt)]; exact hx'⟩
                obtain ⟨z, hz1, hz2⟩ := ih (.delete (n - m) :: as) bs (base.drop m) x y
                  (by simp only [List.length_cons] at hk ⊢; omega) ha' hy'
                refine ⟨z, ?_, ?_⟩
                · rw [ht1]
                  exact hz1
                · rw [ht2]
                  exact hz2

end OtText


open OtText Collab in
/-- C1: for every base document text and every pair of operations A
(host-origin) and B (client-origin) issued concurrently against the same base
revision, `apply(apply(base, A), transform(B, A, "right"))` equals
`apply(apply(base, B), transform(A, B, "left"))`, and the common result
exists, so both replicas compute the identical document regardless of
application order. -/
theorem ot_convergence (a b : Op) (base x y : List Char)
    (ha : OtText.apply base a = some x) (hb : OtText.apply base b = some y) :
    OtText.apply x (transform b a .right) = OtText.apply y (transform a b .left) ∧
      ∃ z, OtText.apply x (transform b a .right) = some z := by
  obtain ⟨z, hz1, hz2⟩ :=
    convergence_aux (a.length + b.length) a b base x y le_rfl ha hb
  exact ⟨hz2.trans hz1.symm, z, hz2⟩

open OtText in
/-- Witness for C1: host operation `retain 1, insert "X", retain 1` and client
operation `delete 1, retain 1` against base `"ab"` converge. -/
theorem ot_convergence_witness :
    OtText.apply ['a', 'X', 'b']
        (transform [.delete 1, .retain 1] [.retain 1, .insert ['X'], .retain 1] .right) =
      OtText.apply ['b']
        (transform [.retain 1, .insert ['X'], .retain 1] [.delete 1, .retain 1] .left) ∧
    ∃ z, OtText.apply ['a', 'X', 'b']
        (transform [.delete 1, .retain 1] [.retain 1, .insert ['X'], .retain 1] .right) =
      some z :=
  ot_convergence [.retain 1, .insert ['X'], .retain 1] [.delete 1, .retain 1]
    ['a', 'b'] ['a', 'X', 'b'] ['b'] (by decide) (by decide)

open Collab in
/-- C2 (counterexample): the host's initial-sync enumeration performs no
ignore filtering — with ignore pattern set `["secret.txt"]` (matched here by
the literal-pattern matcher) and an open file-scheme document
`/w/secret.txt`, the `Welcome` sent by `onClientConnected` lists the ignored
path `secret.txt`, refuting "no ignored path ever appears in the initial-sync
enumeration". -/
theorem welcome_lists_ignored_path :
    isIgnoredByPatterns (fun p q => p == q) "secret.txt" ["secret.txt"] = true ∧
    HostEffect.send (.welcome "alice" ["secret.txt"]) ∈
      onClientConnected
        { username := "alice",
          workspaceFolders := [{ name := "proj", fsPath := "/w" }],
          textDocuments :=
            [{ scheme := "file", fsPath := "/w/secret.txt", isClosed := false }] }
        { username := some "bob", workspaceFolder := "proj", passphraseHash := none } := by
  exact ⟨by decide, by decide⟩

open Collab in
/-- C2 (amended): the `openFiles` list the host sends in `Welcome` enumerates
exactly the currently open file-scheme documents under the workspace root
(as workspace-relative paths), with no exclusion of paths matching the Ignore
Pattern Set. -/
theorem getOpenTextFiles_spec (ws : WorkspaceFolder) (docs : List TextDocument)
    (p : String) :
    p ∈ getOpenTextFiles (some ws) docs ↔
      ∃ d ∈ docs, d.scheme = "file" ∧ jsStartsWith d.fsPath ws.fsPath = true ∧
        d.isClosed = false ∧ relativePathOf ws.fsPath d.fsPath = p := by
  simp [getOpenTextFiles, List.mem_map, List.mem_filter, Bool.and_eq_true,
    beq_iff_eq, Bool.not_eq_true', and_assoc]

open Collab in
/-- C4 (counterexample): when saving fails, `handleFileSaveRequest` sends
nothing at all — the failure is silently ignored rather than reported over
the protocol. -/
theorem fileSaveRequest_failure_silent :
    handleFileSaveRequest "/w" (fun _ => false) (.obj [("filePath", .str "a.ts")]) =
      .ok [] := by
  rfl

open Collab in
/-- C4 (amended): for every well-formed `FileSaveRequest{filePath}`, the host
sends `FileSaved{filePath}` iff opening and saving the file succeeds, and
sends nothing when it fails (the failure is silently ignored; the client's
file stays dirty only because no `FileSaved` acknowledgement ever arrives). -/
theorem handleFileSaveRequest_spec (root : String) (saveOk : String → Bool)
    (p : String) :
    handleFileSaveRequest root saveOk (.obj [("filePath", .str p)]) =
      .ok (if saveOk (root ++ "/" ++ p) then [.fileSaved p] else []) := by
  cases h : saveOk (root ++ "/" ++ p) <;>
    simp [handleFileSaveRequest, jget, bind, Except.bind, h]

open Collab in
/-- Helper: the last event of a pushed-down sequence. -/
theorem lastEvent_cons (e ev : Nat × TextEditor) (l : List (Nat × TextEditor)) :
    lastEvent e (ev :: l) = lastEvent ev l := rfl

open Collab in
/-- Helper: while every next event arrives before the pending timer's
deadline, the timer keeps being replaced, and the single flush carries the
last event's editor. -/
theorem debounceAux_close (env : CursorEnv) (evs : List (Nat × TextEditor)) :
    ∀ e : Nat × TextEditor,
      List.Chain (fun a b => b.1 < a.1 + DEBOUNCE_MS) e evs →
      debounceAux env (some { deadline := e.1 + DEBOUNCE_MS, editor := e.2 }) evs =
        sendCursorUpdate env (lastEvent e evs).2 := by
  induction evs with
  | nil => intro e h; simp [debounceAux, lastEvent]
  | cons ev rest ih =>
      intro e h
      rw [List.chain_cons] at h
      obtain ⟨h1, h2⟩ := h
      rw [lastEvent_cons]
      simp only [debounceAux]
      rw [if_pos h1]
      exact ih ev h2

open Collab in
/-- C5 (amended): N ≥ 1 local cursor/selection change events within one 50 ms
debounce window produce exactly one outbound `CursorUpdate`, carrying the
state of the last event — provided a workspace folder is open and the last
event's document is a file-scheme document under it (`sendCursorUpdate`
silently drops other documents, e.g. output panels or untitled editors). -/
theorem debounce_coalesces (env : CursorEnv) (ws : WorkspaceFolder)
    (e : Nat × TextEditor) (evs : List (Nat × TextEditor))
    (hclose : List.Chain (fun a b => b.1 < a.1 + DEBOUNCE_MS) e evs)
    (hws : env.workspaceFolders.head? = some ws)
    (hscheme : (lastEvent e evs).2.scheme = "file")
    (hpath : jsStartsWith (lastEvent e evs).2.fsPath ws.fsPath = true) :
    debounceRun env (e :: evs) =
      [.cursorUpdate
        { filePath := relativePathOf ws.fsPath (lastEvent e evs).2.fsPath,
          username := env.username,
          cursors := cursorsOf (lastEvent e evs).2.selections }] := by
  have h1 : debounceRun env (e :: evs) = sendCursorUpdate env (lastEvent e evs).2 := by
    simp only [debounceRun, debounceAux]
    exact debounceAux_close env evs e hclose
  rw [h1]
  simp [sendCursorUpdate, hscheme, hws, hpath]

open Collab in
/-- Witness for C5: two rapid selection changes (at 0 ms and 10 ms) in file
editors produce exactly one `CursorUpdate` carrying the second editor's
state. -/
theorem debounce_coalesces_witness :
    debounceRun
      { workspaceFolders := [{ name := "proj", fsPath := "/w" }], username := "alice" }
      [(0, { scheme := "file", fsPath := "/w/a.ts", selections := [] }),
       (10, { scheme := "file", fsPath := "/w/b.ts", selections := [] })] =
      [.cursorUpdate { filePath := "b.ts", username := "alice", cursors := [] }] :=
  debounce_coalesces
    { workspaceFolders := [{ name := "proj", fsPath := "/w" }], username := "alice" }
    { name := "proj", fsPath := "/w" }
    (0, { scheme := "file", fsPath := "/w/a.ts", selections := [] })
    [(10, { scheme := "file", fsPath := "/w/b.ts", selections := [] })]
    (List.Chain.cons (by decide) List.Chain.nil) rfl rfl (by decide)

open Collab in
/-- C5 (counterexample): a single selection-change event whose editor is not
a file-scheme document (here an output panel) produces no `CursorUpdate` at
all, refuting "exactly one outbound CursorUpdate message is produced" for
every N ≥ 1 event sequence. -/
theorem debounce_ineligible_editor_no_message :
    debounceRun
      { workspaceFolders := [{ name := "proj", fsPath := "/w" }], username := "alice" }
      [(0, { scheme := "output", fsPath := "/w/log", selections := [] })] = [] := by
  decide

open Collab in
/-- C6: `isIgnoredByPatterns(relativePath, patterns)` returns true exactly
when some pattern in the set matches the path (for any matcher semantics,
including minimatch with dot-files matchable), and a File-Ops event whose
path is ignored produces no outbound message. -/
theorem ignored_paths_never_sent (m : String → String → Bool) (path : String)
    (ps : List String) :
    (isIgnoredByPatterns m path ps = true ↔ ∃ p ∈ ps, m path p = true) ∧
    (∀ ev : FileOpsEvent, ev.path = path →
      isIgnoredByPatterns m path ps = true → fileOpsOutbound m ps ev = []) := by
  constructor
  · simp [isIgnoredByPatterns, List.any_eq_true]
  · intro ev hp hig
    simp [fileOpsOutbound, hp, hig]

open Collab in
/-- Witness for C6: with pattern set `["a.txt"]` and the literal matcher, the
creation of `a.txt` is ignored and produces no outbound message. -/
theorem ignored_paths_never_sent_witness :
    fileOpsOutbound (fun p q => p == q) ["a.txt"] (.created "a.txt") = [] :=
  (ignored_paths_never_sent (fun p q => p == q) "a.txt" ["a.txt"]).2
    (.created "a.txt") rfl (by decide)

open Collab in
/-- C3: a `Hello` whose passphrase does not match the session's passphrase
makes the host send an `Error` and close the connection, without sending
`Welcome`; the host drops back to `listening`, so the failure is fatal only
to that attempted connection. -/
theorem passphrase_mismatch_rejects (sessionPass : String) (env : HostEnv)
    (hello : HelloPayload) (h : hello.passphraseHash ≠ some sessionPass) :
    hostHandshake (some sessionPass) env hello =
      (.listening, [.send (.error "Invalid passphrase."), .closeConnection]) ∧
    (∀ u fs, HostEffect.send (.welcome u fs) ∉
      (hostHandshake (some sessionPass) env hello).2) := by
  have hc : passphraseCheck (some sessionPass) hello.passphraseHash = false := by
    simp [passphraseCheck, h]
  constructor
  · simp [hostHandshake, hc]
  · simp [hostHandshake, hc]

open Collab in
/-- Witness for C3: a wrong passphrase against a protected session is
rejected with an `Error` and no `Welcome`. -/
theorem passphrase_mismatch_rejects_witness :
    hostHandshake (some "secret")
        { username := "alice", workspaceFolders := [], textDocuments := [] }
        { username := some "bob", workspaceFolder := "proj",
          passphraseHash := some "wrong" } =
      (.listening, [.send (.error "Invalid passphrase."), .closeConnection]) ∧
    (∀ u fs, HostEffect.send (.welcome u fs) ∉
      (hostHandshake (some "secret")
        { username := "alice", workspaceFolders := [], textDocuments := [] }
        { username := some "bob", workspaceFolder := "proj",
          passphraseHash := some "wrong" }).2) :=
  passphrase_mismatch_rejects "secret"
    { username := "alice", workspaceFolders := [], textDocuments := [] }
    { username := some "bob", workspaceFolder := "proj",
      passphraseHash := some "wrong" } (by decide)

open Collab in
/-- C7: when the client's `Hello.workspaceFolder` differs from the host's
workspace folder name, the host emits exactly the mismatch warning and then
proceeds with the handshake unchanged — the remaining trace equals the trace
of a matching `Hello`, and sync setup and `Welcome` still happen. -/
theorem workspace_mismatch_warns_and_proceeds (env : HostEnv)
    (hello : HelloPayload) (ws : WorkspaceFolder)
    (hws : env.workspaceFolders.head? = some ws)
    (hmm : hello.workspaceFolder ≠ ws.name) :
    onClientConnected env hello =
      .showWarningMessage (workspaceMismatchWarning hello.workspaceFolder ws.name) ::
        onClientConnected env { hello with workspaceFolder := ws.name } ∧
    HostEffect.setupSync ∈ onClientConnected env hello ∧
    HostEffect.send (.welcome env.username (getOpenTextFiles (some ws) env.textDocuments)) ∈
      onClientConnected env hello := by
  refine ⟨?_, ?_, ?_⟩
  · simp [onClientConnected, hws, hmm]
  · simp [onClientConnected, hws, hmm]
  · simp [onClientConnected, hws, hmm]

open Collab in
/-- Witness for C7: a client whose workspace is named `other` joining a host
workspace named `proj` gets the warning, and the handshake still sets up sync
and sends `Welcome`. -/
theorem workspace_mismatch_warns_and_proceeds_witness :
    onClientConnected
        { username := "alice",
          workspaceFolders := [{ name := "proj", fsPath := "/w" }],
          textDocuments := [] }
        { username := some "bob", workspaceFolder := "other", passphraseHash := none } =
      .showWarningMessage (workspaceMismatchWarning "other" "proj") ::
        onClientConnected
          { username := "alice",
            workspaceFolders := [{ name := "proj", fsPath := "/w" }],
            textDocuments := [] }
          { username := some "bob", workspaceFolder := "proj", passphraseHash := none } ∧
    HostEffect.setupSync ∈ onClientConnected
        { username := "alice",
          workspaceFolders := [{ name := "proj", fsPath := "/w" }],
          textDocuments := [] }
        { username := some "bob", workspaceFolder := "other", passphraseHash := none } ∧
    HostEffect.send (.welcome "alice"
        (getOpenTextFiles (some { name := "proj", fsPath := "/w" }) [])) ∈
      onClientConnected
        { username := "alice",
          workspaceFolders := [{ name := "proj", fsPath := "/w" }],
          textDocuments := [] }
        { username := some "bob", workspaceFolder := "other", passphraseHash := none } :=
  workspace_mismatch_warns_and_proceeds
    { username := "alice",
      workspaceFolders := [{ name := "proj", fsPath := "/w" }],
      textDocuments := [] }
    { username := some "bob", workspaceFolder := "other", passphraseHash := none }
    { name := "proj", fsPath := "/w" } rfl (by decide)

open Collab in
/-- C9: when the host has no workspace folder open, an arriving `Hello` is
answered with exactly `Error{"Host has no workspace open."}` — no sync setup
and no `Welcome`. -/
theorem no_workspace_rejects_hello (env : HostEnv) (hello : HelloPayload)
    (h : env.workspaceFolders = []) :
    onClientConnected env hello = [.send (.error "Host has no workspace open.")] ∧
    HostEffect.setupSync ∉ onClientConnected env hello ∧
    (∀ u fs, HostEffect.send (.welcome u fs) ∉ onClientConnected env hello) := by
  refine ⟨?_, ?_, ?_⟩
  · simp [onClientConnected, h]
  · simp [onClientConnected, h]
  · simp [onClientConnected, h]

open Collab in
/-- Witness for C9: a `Hello` against a host with no workspace folder yields
only the error reply. -/
theorem no_workspace_rejects_hello_witness :
    onClientConnected
        { username := "alice", workspaceFolders := [], textDocuments := [] }
        { username := some "bob", workspaceFolder := "proj", passphraseHash := none } =
      [.send (.error "Host has no workspace open.")] ∧
    HostEffect.setupSync ∉ onClientConnected
        { username := "alice", workspaceFolders := [], textDocuments := [] }
        { username := some "bob", workspaceFolder := "proj", passphraseHash := none } ∧
    (∀ u fs, HostEffect.send (.welcome u fs) ∉ onClientConnected
        { username := "alice", workspaceFolders := [], textDocuments := [] }
        { username := some "bob", workspaceFolder := "proj", passphraseHash := none }) :=
  no_workspace_rejects_hello
    { username := "alice", workspaceFolders := [], textDocuments := [] }
    { username := some "bob", workspaceFolder := "proj", passphraseHash := none } rfl

open Collab in
/-- C8 (counterexample): the router validates nothing — a `CursorUpdate`
message whose payload is `null` makes `onMessage` throw a `TypeError` (the
handler reads `payload.filePath` off `null`) instead of dropping the message,
refuting "no payload makes it throw". -/
theorem onMessage_null_cursorUpdate_throws :
    onMessage
      { activeTextEditor := none,
        workspaceFolders := [{ name := "proj", fsPath := "/w" }],
        clientUsername := "bob",
        workspaceRoot := "/w",
        saveOk := fun _ => true,
        hasUrl := fun _ => false }
      { cursorSync := some
          { remoteCursors := .null, remoteFileUri := none, previousRemoteFileUri := none },
        documentSync := true,
        whiteboard := none,
        hasSendFn := true }
      { type := .cursorUpdate, payload := .null } = .error .typeError := rfl

open Collab in
/-- C8 (amended): `onMessage` dispatches on the message type and passes the
raw payload to the subsystem handlers without validating any field; message
kinds outside the switch are silently ignored, but a malformed payload can
raise a `TypeError` inside a handler (e.g. a `CursorUpdate` whose payload is
`null`) rather than being dropped. -/
theorem onMessage_dispatch_spec (env : RouterEnv) (st : RouterState) :
    (∀ payload, onMessage env st { type := .otherType, payload := payload } =
      .ok (st, [])) ∧
    (∀ cs, st.cursorSync = some cs →
      onMessage env st { type := .cursorUpdate, payload := .null } =
        .error .typeError) := by
  constructor
  · intro payload
    rfl
  · intro cs hcs
    simp only [onMessage, hcs]
    cases h : env.activeTextEditor <;>
      simp [handleRemoteCursorUpdate, applyRemoteDecorations, jget, truthy, h,
        bind, Except.bind]

open Collab in
/-- Witness for C8: at a concrete router state with an active cursor sync, an
unknown message kind is ignored and a `null` `CursorUpdate` payload throws. -/
theorem onMessage_dispatch_spec_witness :
    onMessage
      { activeTextEditor := none,
        workspaceFolders := [],
        clientUsername := "bob",
        workspaceRoot := "/w",
        saveOk := fun _ => true,
        hasUrl := fun _ => false }
      { cursorSync := some
          { remoteCursors := .undefined, remoteFileUri := none, previousRemoteFileUri := none },
        documentSync := false,
        whiteboard := none,
        hasSendFn := false }
      { type := .otherType, payload := .num 5 } =
      .ok
        ({ cursorSync := some
             { remoteCursors := .undefined, remoteFileUri := none,
               previousRemoteFileUri := none },
           documentSync := false,
           whiteboard := none,
           hasSendFn := false }, []) ∧
    onMessage
      { activeTextEditor := none,
        workspaceFolders := [],
        clientUsername := "bob",
        workspaceRoot := "/w",
        saveOk := fun _ => true,
        hasUrl := fun _ => false }
      { cursorSync := some
          { remoteCursors := .undefined, remoteFileUri := none, previousRemoteFileUri := none },
        documentSync := false,
        whiteboard := none,
        hasSendFn := false }
      { type := .cursorUpdate, payload := .null } = .error .typeError :=
  ⟨(onMessage_dispatch_spec _ _).1 (.num 5),
    (onMessage_dispatch_spec _ _).2
      { remoteCursors := .undefined, remoteFileUri := none, previousRemoteFileUri := none }
      rfl⟩

open Collab in
/-- C10: at most one session role is ever active — `startSession` refuses
while a host session or a client session is active, `joinSession` refuses
while a client session or a host session is active, each refusal leaves the
state unchanged, and every command preserves mutual exclusion of the two
roles. -/
theorem single_session_role (st : ExtState) :
    (∀ ok, hostActive st = true →
      startSession st ok = (st, [.warning "A hosting session is already active."])) ∧
    (∀ ok, hostActive st = false → clientActive st = true →
      startSession st ok =
        (st, [.warning "You are currently connected as a client. Leave that session first."])) ∧
    (∀ addr ok, clientActive st = true →
      joinSession st addr ok =
        (st, [.warning "Already connected to a session. Leave it first."])) ∧
    (∀ addr ok, clientActive st = false → hostActive st = true →
      joinSession st addr ok =
        (st, [.warning "You are currently hosting a session. Stop it first."])) ∧
    (∀ cmd, (hostActive st && clientActive st) = false →
      (hostActive (extStep st cmd).1 && clientActive (extStep st cmd).1) = false) := by
  refine ⟨?_, ?_, ?_, ?_, ?_⟩
  · intro ok h
    simp [startSession, h]
  · intro ok h1 h2
    simp [startSession, h1, h2]
  · intro addr ok h
    simp [joinSession, h]
  · intro addr ok h1 h2
    simp [joinSession, h1, h2]
  · intro cmd h
    cases cmd with
    | start ok =>
        simp only [extStep, startSession]
        split_ifs <;> simp_all [hostActive, clientActive]
    | stop =>
        simp only [extStep, stopSession]
        split_ifs <;> simp_all [hostActive, clientActive]
    | join addr ok =>
        cases addr <;> simp only [extStep, joinSession] <;>
          split_ifs <;> simp_all [hostActive, clientActive]
    | leave =>
        simp only [extStep, leaveSession]
        split_ifs <;> simp_all [hostActive, clientActive]

open Collab in
/-- Witness for C10: with an active host session, starting again and joining
both refuse and leave the state unchanged. -/
theorem single_session_role_witness :
    startSession
      { hostSession := some { isActive := true }, clientSession := none,
        workspaceOpen := true } true =
      ({ hostSession := some { isActive := true }, clientSession := none,
         workspaceOpen := true },
       [.warning "A hosting session is already active."]) ∧
    joinSession
      { hostSession := some { isActive := true }, clientSession := none,
        workspaceOpen := true } (some "192.168.1.5:9876") true =
      ({ hostSession := some { isActive := true }, clientSession := none,
         workspaceOpen := true },
       [.warning "You are currently hosting a session. Stop it first."]) :=
  ⟨(single_session_role _).1 true rfl,
    (single_session_role _).2.2.2.1 (some "192.168.1.5:9876") true rfl rfl⟩
